import Mathlib

/-!
Shallow embedding of the simdjson parse-pipeline core:
`include/simdjson/inline/parser.h` (parser capacity/lifecycle, parse entry
points, file loading) and `src/generic/stage2/streaming_structural_parser.h`
(the streaming stage-2 start/finish overrides and `implementation::stage2`).

External collaborators that are not part of the two source files
(`document::allocate`, the active implementation's scratch allocation and
full parse, `internal::allocate_padded_buffer`, the file system) are
represented by an environment of oracles, so that theorems quantify over
every possible outcome of those calls.  Helper members of the stage-2 base
class `structural_parser` that the streaming overrides call but whose code
is not in the repository snapshot are modelled from the specification and
carry a doc comment saying so.
-/

namespace SimdjsonSpec

/-- The error taxonomy exposed to callers (spec section 6).  `SUCCESS` is the
C++ zero value, so a result "is an error" exactly when it differs from
`SUCCESS`.  `OTHER_ERROR` stands for the remaining value-syntax error kinds,
which are opaque to this core. -/
inductive ErrorCode where
  | SUCCESS
  | SUCCESS_AND_HAS_MORE
  | CAPACITY
  | MEMALLOC
  | DEPTH_ERROR
  | TAPE_ERROR
  | IO_ERROR
  | UNINITIALIZED
  | OTHER_ERROR
  deriving DecidableEq, Repr

/-- C++ truthiness of an `error_code`: nonzero means failure. -/
def ErrorCode.isErr (e : ErrorCode) : Bool := e != ErrorCode.SUCCESS

/-- The `dom::parser` state (fields of `dom/parser.h` used by the inline
implementation).  The Tape is abstracted to its allocated capacity
(`tape = some n` means `doc.tape` exists and was sized for capacity `n`;
`none` means no Tape).  The implementation-private scratch block is
abstracted to the `(capacity, max_depth)` pair it was sized for.
`loaded_bytes` holds the logical contents of the internally owned padded
buffer used by `load`. -/
structure Parser where
  _capacity : Nat
  _max_capacity : Nat
  _max_depth : Nat
  tape : Option Nat
  scratch : Option (Nat × Nat)
  valid : Bool
  error : ErrorCode
  loaded_bytes : Option (List Nat)
  _loaded_bytes_capacity : Nat
  deriving DecidableEq, Repr

/-- Modelled from the spec: a freshly constructed `parser(max_capacity)` has
no Tape, no scratch state, zero capacity and depth, `valid = false` and an
uninitialized error (constructor at `inline/parser.h:18` plus the member
defaults of the class declaration, which is outside the snapshot). -/
def Parser.init (max_capacity : Nat) : Parser :=
  { _capacity := 0
    _max_capacity := max_capacity
    _max_depth := 0
    tape := none
    scratch := none
    valid := false
    error := ErrorCode.UNINITIALIZED
    loaded_bytes := none
    _loaded_bytes_capacity := 0 }

/-- Modelled from the spec: the default maximum nesting depth used by
`ensure_capacity` when the parser has no positive `max_depth` yet. -/
def DEFAULT_MAX_DEPTH : Nat := 1024

/-- Modelled from the spec: the fixed small padding constant the scanner
requires beyond the logical length of any buffer handed to it. -/
def SIMDJSON_PADDING : Nat := 32

/-- Outcomes of the external collaborators, one oracle per call site:
`docAlloc c` is the result of `doc.allocate(c)`; `implAlloc c d` the result
of `active_implementation->allocate(parser, c, d)`; `padAlloc n` whether
`internal::allocate_padded_buffer(n)` returns a non-null buffer;
`implParse bytes n` the result of `active_implementation->parse(buf, n,
parser)` on a buffer holding `bytes`; `fopen path` the contents of the file
at `path`, or `none` when the file cannot be opened. -/
structure Env where
  docAlloc : Nat → ErrorCode
  implAlloc : Nat → Nat → ErrorCode
  padAlloc : Nat → Bool
  implParse : List Nat → Nat → ErrorCode
  fopen : String → Option (List Nat)

/-- `parser::allocate(capacity, max_depth)` (`inline/parser.h:154`).
Reallocates the Tape when `capacity` changed or no Tape exists yet (a failed
Tape reallocation leaves no Tape); then resizes the implementation scratch
state when `capacity` or `max_depth` changed, zeroing `_capacity` and
`_max_depth` on scratch failure and recording the new sizes on success. -/
def Parser.allocate (env : Env) (p : Parser) (capacity max_depth : Nat) :
    ErrorCode × Parser :=
  let docStep : ErrorCode × Parser :=
    if p._capacity ≠ capacity ∨ p.tape = none then
      let err := env.docAlloc capacity
      if err.isErr then (err, { p with tape := none })
      else (ErrorCode.SUCCESS, { p with tape := some capacity })
    else (ErrorCode.SUCCESS, p)
  if docStep.1.isErr then docStep
  else
    let p1 := docStep.2
    if p._capacity ≠ capacity ∨ p._max_depth ≠ max_depth then
      let err := env.implAlloc capacity max_depth
      if err.isErr then
        (err, { p1 with scratch := none, _capacity := 0, _max_depth := 0 })
      else
        (ErrorCode.SUCCESS,
          { p1 with scratch := some (capacity, max_depth),
                    _capacity := capacity, _max_depth := max_depth })
    else (ErrorCode.SUCCESS, p1)

/-- `parser::set_max_capacity(n)` (`inline/parser.h:182`). -/
def Parser.set_max_capacity (p : Parser) (n : Nat) : Parser :=
  { p with _max_capacity := n }

/-- `parser::ensure_capacity(desired)` (`inline/parser.h:186`): no-op when
the capacity suffices and the Tape exists; `CAPACITY` (recorded in the
parser's `error` member) when the desired capacity exceeds the ceiling;
otherwise grows through `allocate`. -/
def Parser.ensure_capacity (env : Env) (p : Parser) (desired : Nat) :
    ErrorCode × Parser :=
  if desired > p._capacity ∨ p.tape = none then
    if desired > p._max_capacity then
      (ErrorCode.CAPACITY, { p with error := ErrorCode.CAPACITY })
    else
      p.allocate env desired
        (if p._max_depth > 0 then p._max_depth else DEFAULT_MAX_DEPTH)
  else (ErrorCode.SUCCESS, p)

/-- Identity of the buffer handed to the active implementation's parse:
the caller's own buffer, or the freshly allocated padded copy. -/
inductive BufPtr where
  | caller
  | copy
  deriving DecidableEq, Repr

/-- Observable buffer handling of one `parser::parse` call:
whether a padded copy was requested (the `realloc_if_needed` branch was
entered), which buffer (and which bytes) the implementation parse was
invoked on (`none` when it was never reached), and whether the padded copy
was freed before returning. -/
structure ParseTrace where
  copyRequested : Bool
  parsedWith : Option (BufPtr × List Nat)
  copyFreed : Bool
  deriving DecidableEq, Repr

/-- Modelled from the spec: the effect of
`active_implementation->parse(buf, len, parser)` on the parser's persistent
flags — a full stage-1/stage-2 run records success (`valid = true`,
`error = SUCCESS`) or its failure kind.  Capacity and depth fields are not
touched: the implementation only consumes the already sized scratch state. -/
def applyImplParse (p : Parser) (code : ErrorCode) : Parser :=
  if code = ErrorCode.SUCCESS then
    { p with valid := true, error := ErrorCode.SUCCESS }
  else { p with valid := false, error := code }

/-- `parser::parse(buf, len, realloc_if_needed)` (`inline/parser.h:97`).
The caller's buffer is `buf` viewed as its `len = buf.length` readable
bytes.  Returns the result (a root `element` handle abstracted to `Unit` on
success), the final parser state, and the buffer-handling trace. -/
def Parser.parse (env : Env) (p : Parser) (buf : List Nat)
    (realloc_if_needed : Bool) :
    Except ErrorCode Unit × Parser × ParseTrace :=
  let len := buf.length
  let ec := p.ensure_capacity env len
  if ec.1.isErr then
    (Except.error ec.1, ec.2, ⟨false, none, false⟩)
  else
    let p1 := ec.2
    if realloc_if_needed then
      if env.padAlloc len then
        let code := env.implParse buf len
        let p2 := applyImplParse p1 code
        if code.isErr then
          (Except.error code, p2, ⟨true, some (BufPtr.copy, buf), true⟩)
        else
          (Except.ok (),
            { p2 with valid := false, error := ErrorCode.UNINITIALIZED },
            ⟨true, some (BufPtr.copy, buf), true⟩)
      else
        (Except.error ErrorCode.MEMALLOC, p1, ⟨true, none, false⟩)
    else
      let code := env.implParse buf len
      let p2 := applyImplParse p1 code
      if code.isErr then
        (Except.error code, p2, ⟨false, some (BufPtr.caller, buf), false⟩)
      else
        (Except.ok (),
          { p2 with valid := false, error := ErrorCode.UNINITIALIZED },
          ⟨false, some (BufPtr.caller, buf), false⟩)

/-- A `std::string`: its character data and its allocated capacity
(`cap ≥ data.length` for any real `std::string`). -/
structure StdString where
  data : List Nat
  cap : Nat
  deriving DecidableEq, Repr

/-- `parser::parse(const std::string &s)` (`inline/parser.h:123`): requests
a padded copy exactly when the string's slack beyond its length is smaller
than the scanner's required padding. -/
def Parser.parse_string (env : Env) (p : Parser) (s : StdString) :
    Except ErrorCode Unit × Parser × ParseTrace :=
  p.parse env s.data (decide (s.cap - s.data.length < SIMDJSON_PADDING))

/-- `parser::parse(const padded_string &s)` (`inline/parser.h:126`): a
padded string already carries the required padding, so no copy. -/
def Parser.parse_padded (env : Env) (p : Parser) (s : List Nat) :
    Except ErrorCode Unit × Parser × ParseTrace :=
  p.parse env s false

/-- `LONG_MAX` of the host's 64-bit `long`. -/
def LONG_MAX : Nat := 2 ^ 63 - 1

/-- `parser::read_file(path)` (`inline/parser.h:39`).  `env.fopen` yields
the file's bytes, or `none` when the file cannot be opened (the `IO_ERROR`
exit at line 47).  For an opened file, `fseek`/`ftell` report its length
and `fread`/`fclose` are modelled as faithful (the remaining stdio failure
exits depend on host conditions outside the embedding); the explicit
`len == LONG_MAX` guard of line 56 is kept.  The internally owned padded
buffer is grown only when too small, then overwritten with the bytes
read. -/
def Parser.read_file (env : Env) (p : Parser) (path : String) :
    Except ErrorCode Nat × Parser :=
  match env.fopen path with
  | none => (Except.error ErrorCode.IO_ERROR, p)
  | some bytes =>
    let len := bytes.length
    if len = LONG_MAX then (Except.error ErrorCode.IO_ERROR, p)
    else if p._loaded_bytes_capacity < len then
      if env.padAlloc len then
        (Except.ok len,
          { p with loaded_bytes := some bytes, _loaded_bytes_capacity := len })
      else (Except.error ErrorCode.MEMALLOC, p)
    else
      (Except.ok len, { p with loaded_bytes := some bytes })

/-- `parser::load(path)` (`inline/parser.h:81`): reads the file, returning
the read error untouched on failure, and otherwise parses the internal
padded buffer with `realloc_if_needed = false`. -/
def Parser.load (env : Env) (p : Parser) (path : String) :
    Except ErrorCode Unit × Parser × ParseTrace :=
  match p.read_file env path with
  | (Except.error code, p1) => (Except.error code, p1, ⟨false, none, false⟩)
  | (Except.ok len, p1) =>
    p1.parse env ((p1.loaded_bytes.getD []).take len) false

/-!  Streaming stage-2 state machine
(`src/generic/stage2/streaming_structural_parser.h`). -/

/-- The stage-2 machine state shared between the `structural_parser` base
and the `dom::parser` it writes through: the structural-index cursor
(`next_structural`, which the iterator `structurals` reads and which
`implementation::stage2` reads back as `doc_parser.next_structural`), the
known structural-index count, the current and maximum nesting depth, the
validity flag, the recorded error, and the buffer stage 2 reads from. -/
structure StreamState where
  next_structural : Nat
  n_structural_indexes : Nat
  depth : Nat
  max_depth : Nat
  valid : Bool
  err : ErrorCode
  parsing_buf : List Nat
  deriving DecidableEq, Repr

/-- Modelled from the spec: `structurals.past_end(n)` — the cursor is
already past the known structural-index count. -/
def StreamState.past_end (s : StreamState) (n : Nat) : Bool :=
  s.next_structural > n

/-- Modelled from the spec: `structurals.at_end(n)` — every structural
index has been consumed. -/
def StreamState.at_end (s : StreamState) (n : Nat) : Bool :=
  s.next_structural = n

/-- Modelled from the spec: the single `on_error(kind)` exit — records the
error kind (and the failed validity) and propagates it. -/
def StreamState.on_error (s : StreamState) (k : ErrorCode) :
    ErrorCode × StreamState :=
  (k, { s with err := k, valid := false })

/-- Modelled from the spec: the `on_success(kind)` exit — records the
success kind and marks the parse valid. -/
def StreamState.on_success (s : StreamState) (k : ErrorCode) :
    ErrorCode × StreamState :=
  (k, { s with err := k, valid := true })

/-- Modelled from the spec: `init()` resets validity. -/
def StreamState.init (s : StreamState) : StreamState :=
  { s with valid := false }

/-- Modelled from the spec: `advance_char()` moves the cursor to the next
structural character. -/
def StreamState.advance_char (s : StreamState) : StreamState :=
  { s with next_structural := s.next_structural + 1 }

/-- Modelled from the spec: `start_document()` pushes the root scope,
returning `true` (C++ truthiness: failure) when the depth budget is already
exhausted. -/
def StreamState.start_document (s : StreamState) : Bool × StreamState :=
  if s.depth ≥ s.max_depth then (true, s)
  else (false, { s with depth := s.depth + 1 })

/-- Modelled from the spec: `end_document(0, 1)` closes the root scope. -/
def StreamState.end_document (s : StreamState) : StreamState :=
  { s with depth := s.depth - 1 }

/-- `streaming_structural_parser::start(len)`
(`streaming_structural_parser.h:8`): `len` is `UNUSED` — no capacity check —
the cursor advances to the first character, then the root scope is pushed,
failing through `on_error(DEPTH_ERROR)` when the push cannot be made. -/
def streamingStart (s : StreamState) (len : Nat) : ErrorCode × StreamState :=
  let _ := len
  let s1 := (s.init).advance_char
  let sd := s1.start_document
  if sd.1 then sd.2.on_error ErrorCode.DEPTH_ERROR
  else (ErrorCode.SUCCESS, sd.2)

/-- `streaming_structural_parser::finish()`
(`streaming_structural_parser.h:22`): `TAPE_ERROR` when the cursor is past
the known count; otherwise closes the root scope, `TAPE_ERROR` when depth
is not back to zero, and otherwise succeeds — `SUCCESS` when every
structural index was consumed, `SUCCESS_AND_HAS_MORE` otherwise. -/
def streamingFinish (s : StreamState) : ErrorCode × StreamState :=
  if s.past_end s.n_structural_indexes then
    s.on_error ErrorCode.TAPE_ERROR
  else
    let s1 := s.end_document
    if s1.depth ≠ 0 then s1.on_error ErrorCode.TAPE_ERROR
    else
      let finished := s1.at_end s1.n_structural_indexes
      s1.on_success
        (if finished then ErrorCode.SUCCESS else ErrorCode.SUCCESS_AND_HAS_MORE)

/-- The recursive descent over the root value (`parse_root_value`), whose
code is outside the snapshot: an oracle returning C++ truthiness (`true` =
failure) and the resulting machine state. -/
structure Stage2Env where
  parse_root_value : StreamState → Bool × StreamState

/-- `implementation::stage2(buf, len, doc_parser, next_json)`
(`streaming_structural_parser.h:44`): wires the buffer, runs `start`, the
root-value parse, assigns `next_json` from the cursor, and runs `finish`.
Returns the error code, the final machine state, and the final value of the
`next_json` out-parameter (initially `next_json0`). -/
def stage2 (env : Stage2Env) (buf : List Nat) (len : Nat) (s0 : StreamState)
    (next_json0 : Nat) : ErrorCode × StreamState × Nat :=
  let s := { s0 with parsing_buf := buf }
  let r := streamingStart s len
  if r.1.isErr then (r.1, r.2, next_json0)
  else
    let rv := env.parse_root_value r.2
    if rv.1 then (rv.2.err, rv.2, next_json0)
    else
      let f := streamingFinish rv.2
      (f.1, f.2, rv.2.next_structural)

/-!  Concrete fixtures used by witnesses. -/

/-- An environment in which every external allocation and parse succeeds
and no file exists. -/
def env0 : Env :=
  { docAlloc := fun _ => ErrorCode.SUCCESS
    implAlloc := fun _ _ => ErrorCode.SUCCESS
    padAlloc := fun _ => true
    implParse := fun _ _ => ErrorCode.SUCCESS
    fopen := fun _ => none }

/-- A parser that already owns a Tape and scratch state for capacity 5. -/
def pA : Parser :=
  { Parser.init 10 with _capacity := 5, _max_depth := 4,
                        tape := some 5, scratch := some (5, 4) }

/-- A stage-2 machine state mid-stream: cursor at 3 of 7 structural
indexes, inside the root scope. -/
def sA : StreamState :=
  { next_structural := 3, n_structural_indexes := 7, depth := 1,
    max_depth := 4, valid := false, err := ErrorCode.UNINITIALIZED,
    parsing_buf := [] }

/-- C1: `ensure_capacity(desired)` returns `SUCCESS` leaving the parser
untouched when `desired` fits the current capacity and the Tape exists;
when the Tape is missing or `desired` exceeds the capacity it fails with
`CAPACITY` — mutating only the recorded error, so Tape and scratch are
byte-for-byte unchanged — if `desired` exceeds `max_capacity`, and
otherwise calls `allocate(desired, d)` with `d` the current positive
`max_depth` or the default. -/
theorem ensure_capacity_correct (env : Env) (p : Parser) (desired : Nat) :
    (desired ≤ p._capacity ∧ p.tape ≠ none →
      p.ensure_capacity env desired = (ErrorCode.SUCCESS, p))
    ∧ ((desired > p._capacity ∨ p.tape = none) → desired > p._max_capacity →
      p.ensure_capacity env desired
        = (ErrorCode.CAPACITY, { p with error := ErrorCode.CAPACITY }))
    ∧ ((desired > p._capacity ∨ p.tape = none) → desired ≤ p._max_capacity →
      p.ensure_capacity env desired
        = p.allocate env desired
            (if p._max_depth > 0 then p._max_depth else DEFAULT_MAX_DEPTH)) := by
  refine ⟨fun h => ?_, fun hg hmax => ?_, fun hg hmax => ?_⟩
  · have hng : ¬ (desired > p._capacity ∨ p.tape = none) := by
      push_neg
      exact ⟨Nat.not_lt.1 (Nat.not_lt.2 h.1), h.2⟩
    unfold Parser.ensure_capacity
    rw [if_neg hng]
  · unfold Parser.ensure_capacity
    rw [if_pos hg, if_pos hmax]
  · unfold Parser.ensure_capacity
    rw [if_pos hg, if_neg (Nat.not_lt.2 hmax)]

/-- Witness for C1: a parser with capacity 5 and a Tape serves
`ensure_capacity 3` as a no-op. -/
theorem ensure_capacity_correct_witness :
    (3 ≤ pA._capacity ∧ pA.tape ≠ none)
    ∧ pA.ensure_capacity env0 3 = (ErrorCode.SUCCESS, pA) :=
  ⟨⟨by decide, by decide⟩,
    (ensure_capacity_correct env0 pA 3).1 ⟨by decide, by decide⟩⟩

/-- C3: `finish()` fails with `TAPE_ERROR` when the cursor is already past
the structural-index count; otherwise it closes the root scope and fails
with `TAPE_ERROR` when depth is not back to zero; otherwise it succeeds
with `SUCCESS` when all structural indexes were consumed and
`SUCCESS_AND_HAS_MORE` when some remain. -/
theorem finish_correct (s : StreamState) :
    (s.next_structural > s.n_structural_indexes →
      (streamingFinish s).1 = ErrorCode.TAPE_ERROR)
    ∧ (s.next_structural ≤ s.n_structural_indexes →
       (s.end_document).depth ≠ 0 →
      (streamingFinish s).1 = ErrorCode.TAPE_ERROR)
    ∧ (s.next_structural = s.n_structural_indexes →
       (s.end_document).depth = 0 →
      (streamingFinish s).1 = ErrorCode.SUCCESS)
    ∧ (s.next_structural < s.n_structural_indexes →
       (s.end_document).depth = 0 →
      (streamingFinish s).1 = ErrorCode.SUCCESS_AND_HAS_MORE) := by
  refine ⟨fun hp => ?_, fun hp hd => ?_, fun hp hd => ?_, fun hp hd => ?_⟩
  · have hb : s.past_end s.n_structural_indexes = true := by
      simp [StreamState.past_end, hp]
    simp [streamingFinish, hb, StreamState.on_error]
  · have hb : s.past_end s.n_structural_indexes = false := by
      simp [StreamState.past_end, Nat.not_lt.2 hp]
    have hd' : s.depth - 1 ≠ 0 := by
      simpa [StreamState.end_document] using hd
    simp [streamingFinish, hb, StreamState.end_document, hd',
      StreamState.on_error]
  · have hb : s.past_end s.n_structural_indexes = false := by
      simp [StreamState.past_end, Nat.not_lt.2 (Nat.le_of_eq hp)]
    have hd' : s.depth - 1 = 0 := by
      simpa [StreamState.end_document] using hd
    simp [streamingFinish, hb, StreamState.end_document, hd',
      StreamState.at_end, hp, StreamState.on_success]
  · have hb : s.past_end s.n_structural_indexes = false := by
      simp [StreamState.past_end, Nat.not_lt.2 (Nat.le_of_lt hp)]
    have hd' : s.depth - 1 = 0 := by
      simpa [StreamState.end_document] using hd
    simp [streamingFinish, hb, StreamState.end_document, hd',
      StreamState.at_end, Nat.ne_of_lt hp, StreamState.on_success]

/-- Witness for C3: mid-stream state `sA` (cursor 3 of 7, depth 1)
finishes with `SUCCESS_AND_HAS_MORE`. -/
theorem finish_correct_witness :
    (sA.next_structural < sA.n_structural_indexes
      ∧ (sA.end_document).depth = 0)
    ∧ (streamingFinish sA).1 = ErrorCode.SUCCESS_AND_HAS_MORE :=
  ⟨⟨by decide, by decide⟩,
    (finish_correct sA).2.2.2 (by decide) (by decide)⟩

/-- C5: `start(len)` never consults `len` (no capacity check), advances
the cursor to the first character in every outcome — in particular before
the root push — and either fails with `DEPTH_ERROR` through `on_error`
when the root scope cannot be pushed (depth budget exhausted) or returns
`SUCCESS` with the root scope open. -/
theorem start_correct (s : StreamState) (len len2 : Nat) :
    streamingStart s len = streamingStart s len2
    ∧ (streamingStart s len).2.next_structural = s.next_structural + 1
    ∧ (s.depth ≥ s.max_depth →
      streamingStart s len
        = ((s.init).advance_char).on_error ErrorCode.DEPTH_ERROR
      ∧ streamingStart s len
        = (ErrorCode.DEPTH_ERROR,
            { s with valid := false,
                     next_structural := s.next_structural + 1,
                     err := ErrorCode.DEPTH_ERROR }))
    ∧ (s.depth < s.max_depth →
      streamingStart s len
        = (ErrorCode.SUCCESS,
            { s with valid := false,
                     next_structural := s.next_structural + 1,
                     depth := s.depth + 1 })) := by
  refine ⟨rfl, ?_, fun h => ?_, fun h => ?_⟩
  · by_cases h : s.max_depth ≤ s.depth <;>
      simp [streamingStart, StreamState.init, StreamState.advance_char,
        StreamState.start_document, StreamState.on_error, h]
  · have h' : s.max_depth ≤ s.depth := h
    refine ⟨?_, ?_⟩ <;>
      simp [streamingStart, StreamState.init, StreamState.advance_char,
        StreamState.start_document, StreamState.on_error, h']
  · have h' : ¬ s.max_depth ≤ s.depth := Nat.not_le.2 h
    simp [streamingStart, StreamState.init, StreamState.advance_char,
      StreamState.start_document, StreamState.on_error, h']

/-- Witness for C5: with the depth budget exhausted (`depth = max_depth`),
`start` fails with `DEPTH_ERROR` after having advanced the cursor. -/
theorem start_correct_witness :
    ({ sA with depth := 4 } : StreamState).depth
        ≥ ({ sA with depth := 4 } : StreamState).max_depth
    ∧ streamingStart { sA with depth := 4 } 20
        = (ErrorCode.DEPTH_ERROR,
            { sA with depth := 4, valid := false, next_structural := 4,
                      err := ErrorCode.DEPTH_ERROR }) :=
  ⟨by decide,
    ((start_correct { sA with depth := 4 } 20 7).2.2.1 (by decide)).2⟩

/-- C8: when the file cannot be opened, `load(path)` fails with `IO_ERROR`
and the parser is left completely unchanged — in particular no Tape is
allocated, since the parse step (and hence `ensure_capacity`/`allocate`)
is never reached. -/
theorem load_missing_file (env : Env) (p : Parser) (path : String)
    (h : env.fopen path = none) :
    p.load env path = (Except.error ErrorCode.IO_ERROR, p, ⟨false, none, false⟩)
    ∧ (p.load env path).2.1.tape = p.tape := by
  have hl : p.load env path
      = (Except.error ErrorCode.IO_ERROR, p, ⟨false, none, false⟩) := by
    unfold Parser.load Parser.read_file
    rw [h]
  exact ⟨hl, by rw [hl]⟩

/-- Witness for C8: loading from an environment with no files fails with
`IO_ERROR` and leaves the fresh parser untouched. -/
theorem load_missing_file_witness :
    env0.fopen "nosuch.json" = none
    ∧ (Parser.init 10).load env0 "nosuch.json"
        = (Except.error ErrorCode.IO_ERROR, Parser.init 10,
            ⟨false, none, false⟩) :=
  ⟨rfl, (load_missing_file env0 (Parser.init 10) "nosuch.json" rfl).1⟩

/-- C10: in `implementation::stage2` the out-parameter `next_json` is
assigned the structural cursor exactly when the root-value parse succeeds:
it keeps its incoming value when `start` fails or the root-value parse
fails, and it receives the cursor of the post-root-value state even when
the subsequent `finish()` fails with `TAPE_ERROR`. -/
theorem stage2_next_json (env : Stage2Env) (buf : List Nat) (len : Nat)
    (s0 : StreamState) (nj : Nat) :
    ((streamingStart { s0 with parsing_buf := buf } len).1 ≠ ErrorCode.SUCCESS →
      (stage2 env buf len s0 nj).2.2 = nj)
    ∧ ((streamingStart { s0 with parsing_buf := buf } len).1 = ErrorCode.SUCCESS →
       (env.parse_root_value
          (streamingStart { s0 with parsing_buf := buf } len).2).1 = true →
      (stage2 env buf len s0 nj).2.2 = nj)
    ∧ ((streamingStart { s0 with parsing_buf := buf } len).1 = ErrorCode.SUCCESS →
       (env.parse_root_value
          (streamingStart { s0 with parsing_buf := buf } len).2).1 = false →
      (stage2 env buf len s0 nj).2.2
          = (env.parse_root_value
              (streamingStart { s0 with parsing_buf := buf } len).2).2.next_structural
      ∧ (stage2 env buf len s0 nj).1
          = (streamingFinish
              (env.parse_root_value
                (streamingStart { s0 with parsing_buf := buf } len).2).2).1) := by
  refine ⟨fun h => ?_, fun h hr => ?_, fun h hr => ?_⟩
  · have hb : (streamingStart { s0 with parsing_buf := buf } len).1.isErr
        = true := by
      cases hc : (streamingStart { s0 with parsing_buf := buf } len).1 <;>
        simp_all [ErrorCode.isErr]
    simp [stage2, hb]
  · have hb : (streamingStart { s0 with parsing_buf := buf } len).1.isErr
        = false := by simp [h, ErrorCode.isErr]
    simp [stage2, hb, hr]
  · have hb : (streamingStart { s0 with parsing_buf := buf } len).1.isErr
        = false := by simp [h, ErrorCode.isErr]
    constructor <;> simp [stage2, hb, hr]

/-- Environment for the C10 witness: the root-value parse consumes two
structural indexes and succeeds. -/
def s2env0 : Stage2Env :=
  { parse_root_value := fun s =>
      (false, { s with next_structural := s.next_structural + 2 }) }

/-- Witness for C10: on a successful start and root-value parse,
`next_json` receives the post-root cursor. -/
theorem stage2_next_json_witness :
    (streamingStart { sA with parsing_buf := [1, 2] } 9).1 = ErrorCode.SUCCESS
    ∧ (s2env0.parse_root_value
        (streamingStart { sA with parsing_buf := [1, 2] } 9).2).1 = false
    ∧ (stage2 s2env0 [1, 2] 9 sA 0).2.2 = 6 :=
  ⟨by decide, by decide,
    ((stage2_next_json s2env0 [1, 2] 9 sA 0).2.2 (by decide) (by decide)).1⟩

/-!  Helper lemmas on error truthiness, shared by several proofs. -/

theorem isErr_iff (e : ErrorCode) : e.isErr = true ↔ e ≠ ErrorCode.SUCCESS := by
  cases e <;> simp [ErrorCode.isErr]

theorem isErr_false_iff (e : ErrorCode) :
    e.isErr = false ↔ e = ErrorCode.SUCCESS := by
  cases e <;> simp [ErrorCode.isErr]

/-- C2: when the capacity/depth pair changed and the active
implementation's scratch allocation fails with `MEMALLOC` (the Tape
allocation, when attempted, having succeeded), `allocate` returns
`MEMALLOC` with the stored capacity and max_depth both reset to zero, and
the Tape that was already (re)allocated in the same call is left intact. -/
theorem allocate_scratch_failure (env : Env) (p : Parser) (c d : Nat)
    (hdoc : env.docAlloc c = ErrorCode.SUCCESS)
    (himpl : env.implAlloc c d = ErrorCode.MEMALLOC)
    (hchanged : p._capacity ≠ c ∨ p._max_depth ≠ d) :
    (p.allocate env c d).1 = ErrorCode.MEMALLOC
    ∧ (p.allocate env c d).2._capacity = 0
    ∧ (p.allocate env c d).2._max_depth = 0
    ∧ ((p._capacity ≠ c ∨ p.tape = none) →
        (p.allocate env c d).2.tape = some c)
    ∧ (¬ (p._capacity ≠ c ∨ p.tape = none) →
        (p.allocate env c d).2.tape = p.tape) := by
  have hch := eq_true hchanged
  by_cases hb : p._capacity ≠ c ∨ p.tape = none
  · have hb' := eq_true hb
    refine ⟨?_, ?_, ?_, fun _ => ?_, fun hn => absurd hb hn⟩ <;>
      simp [Parser.allocate, hb', hch, hdoc, himpl, ErrorCode.isErr]
  · have hb' := eq_false hb
    refine ⟨?_, ?_, ?_, fun hx => absurd hx hb, fun _ => ?_⟩ <;>
      simp [Parser.allocate, hb', hch, hdoc, himpl, ErrorCode.isErr]

/-- Environment whose scratch allocation always fails out of memory. -/
def envScratchFail : Env := { env0 with implAlloc := fun _ _ => ErrorCode.MEMALLOC }

/-- Witness for C2: growing a fresh parser to capacity 4 with a failing
scratch allocation returns `MEMALLOC`, zeroes capacity/depth, and keeps the
freshly allocated Tape. -/
theorem allocate_scratch_failure_witness :
    envScratchFail.docAlloc 4 = ErrorCode.SUCCESS
    ∧ envScratchFail.implAlloc 4 2 = ErrorCode.MEMALLOC
    ∧ ((Parser.init 10).allocate envScratchFail 4 2).1 = ErrorCode.MEMALLOC
    ∧ ((Parser.init 10).allocate envScratchFail 4 2).2._capacity = 0
    ∧ ((Parser.init 10).allocate envScratchFail 4 2).2.tape = some 4 :=
  ⟨rfl, rfl,
    (allocate_scratch_failure envScratchFail (Parser.init 10) 4 2 rfl rfl
      (Or.inl (by decide))).1,
    (allocate_scratch_failure envScratchFail (Parser.init 10) 4 2 rfl rfl
      (Or.inl (by decide))).2.1,
    (allocate_scratch_failure envScratchFail (Parser.init 10) 4 2 rfl rfl
      (Or.inl (by decide))).2.2.2.1 (Or.inl (by decide))⟩

/-- C4: once the delegated implementation parse succeeds, `parse` resets
the persistent flags — `valid = false`, `error = UNINITIALIZED` — before
returning the root handle; when the delegated parse fails, its error code
is returned unchanged. -/
theorem parse_resets_validity (env : Env) (p : Parser) (buf : List Nat)
    (r : Bool)
    (hens : (p.ensure_capacity env buf.length).1 = ErrorCode.SUCCESS)
    (hpad : r = true → env.padAlloc buf.length = true) :
    (env.implParse buf buf.length = ErrorCode.SUCCESS →
      (p.parse env buf r).1 = Except.ok ()
      ∧ (p.parse env buf r).2.1.valid = false
      ∧ (p.parse env buf r).2.1.error = ErrorCode.UNINITIALIZED)
    ∧ (env.implParse buf buf.length ≠ ErrorCode.SUCCESS →
      (p.parse env buf r).1 = Except.error (env.implParse buf buf.length)) := by
  cases r
  · refine ⟨fun hs => ?_, fun hf => ?_⟩
    · simp [Parser.parse, ErrorCode.isErr, hens, hs, applyImplParse]
    · simp [Parser.parse, ErrorCode.isErr, hens, hf]
  · have hp2 : env.padAlloc buf.length = true := hpad rfl
    refine ⟨fun hs => ?_, fun hf => ?_⟩
    · simp [Parser.parse, ErrorCode.isErr, hens, hp2, hs, applyImplParse]
    · simp [Parser.parse, ErrorCode.isErr, hens, hp2, hf]

/-- Witness for C4: a successful parse of `[1,2,3]` on a sized parser
leaves `valid = false` and `error = UNINITIALIZED`. -/
theorem parse_resets_validity_witness :
    (pA.ensure_capacity env0 [1, 2, 3].length).1 = ErrorCode.SUCCESS
    ∧ env0.implParse [1, 2, 3] 3 = ErrorCode.SUCCESS
    ∧ (pA.parse env0 [1, 2, 3] false).2.1.valid = false
    ∧ (pA.parse env0 [1, 2, 3] false).2.1.error = ErrorCode.UNINITIALIZED :=
  ⟨by decide, rfl,
    ((parse_resets_validity env0 pA [1, 2, 3] false (by decide)
        (fun _ => rfl)).1 rfl).2.1,
    ((parse_resets_validity env0 pA [1, 2, 3] false (by decide)
        (fun _ => rfl)).1 rfl).2.2⟩

/-- C7: with `may_copy` set, `parse` allocates a fresh padded copy —
failing with `MEMALLOC` before any parsing when that allocation fails —
hands the implementation the copy carrying the caller's bytes, and frees
the copy before returning whatever the parse outcome; a failing
`ensure_capacity` returns its error before any buffer is touched. -/
theorem parse_copy_discipline (env : Env) (p : Parser) (buf : List Nat) :
    ((p.ensure_capacity env buf.length).1 ≠ ErrorCode.SUCCESS →
      (p.parse env buf true).1
          = Except.error (p.ensure_capacity env buf.length).1
      ∧ (p.parse env buf true).2.2 = ⟨false, none, false⟩)
    ∧ ((p.ensure_capacity env buf.length).1 = ErrorCode.SUCCESS →
       env.padAlloc buf.length = false →
      (p.parse env buf true).1 = Except.error ErrorCode.MEMALLOC
      ∧ (p.parse env buf true).2.2.parsedWith = none)
    ∧ ((p.ensure_capacity env buf.length).1 = ErrorCode.SUCCESS →
       env.padAlloc buf.length = true →
      (p.parse env buf true).2.2.parsedWith = some (BufPtr.copy, buf)
      ∧ (p.parse env buf true).2.2.copyFreed = true) := by
  refine ⟨fun he => ?_, fun he hp2 => ?_, fun he hp2 => ?_⟩
  · constructor <;> simp [Parser.parse, ErrorCode.isErr, he]
  · constructor <;> simp [Parser.parse, ErrorCode.isErr, he, hp2]
  · by_cases hc : env.implParse buf buf.length = ErrorCode.SUCCESS
    · constructor <;> simp [Parser.parse, ErrorCode.isErr, he, hp2, hc]
    · constructor <;> simp [Parser.parse, ErrorCode.isErr, he, hp2, hc]

/-- Witness for C7: a copy-parse of `[7]` on a sized parser hands the
implementation the padded copy of the caller's byte and frees it. -/
theorem parse_copy_discipline_witness :
    (pA.ensure_capacity env0 [7].length).1 = ErrorCode.SUCCESS
    ∧ env0.padAlloc 1 = true
    ∧ (pA.parse env0 [7] true).2.2.parsedWith = some (BufPtr.copy, [7])
    ∧ (pA.parse env0 [7] true).2.2.copyFreed = true :=
  ⟨by decide, rfl,
    ((parse_copy_discipline env0 pA [7]).2.2 (by decide) rfl).1,
    ((parse_copy_discipline env0 pA [7]).2.2 (by decide) rfl).2⟩

/-- When `ensure_capacity` succeeds, the copy-request bit of the trace is
exactly the `realloc_if_needed` argument. -/
theorem parse_copyRequested (env : Env) (p : Parser) (buf : List Nat)
    (b : Bool)
    (hens : (p.ensure_capacity env buf.length).1 = ErrorCode.SUCCESS) :
    (p.parse env buf b).2.2.copyRequested = b := by
  cases b
  · by_cases hc : env.implParse buf buf.length = ErrorCode.SUCCESS <;>
      simp [Parser.parse, ErrorCode.isErr, hens, hc]
  · by_cases hp2 : env.padAlloc buf.length = true
    · by_cases hc : env.implParse buf buf.length = ErrorCode.SUCCESS <;>
        simp [Parser.parse, ErrorCode.isErr, hens, hp2, hc]
    · simp [Parser.parse, ErrorCode.isErr, hens, hp2]

/-- A parse with `realloc_if_needed = false` never requests a copy, on any
path including a failing `ensure_capacity`. -/
theorem parse_false_no_copy (env : Env) (p : Parser) (buf : List Nat) :
    (p.parse env buf false).2.2.copyRequested = false := by
  by_cases he : (p.ensure_capacity env buf.length).1 = ErrorCode.SUCCESS
  · by_cases hc : env.implParse buf buf.length = ErrorCode.SUCCESS <;>
      simp [Parser.parse, ErrorCode.isErr, he, hc]
  · simp [Parser.parse, ErrorCode.isErr, he]

/-- C9: `parse(std::string)` requests a padded copy exactly when the
string's slack below its capacity is smaller than `SIMDJSON_PADDING`, and
a `padded_string` input is never copied. -/
theorem parse_string_copy_iff (env : Env) (p : Parser) (s : StdString)
    (hens : (p.ensure_capacity env s.data.length).1 = ErrorCode.SUCCESS) :
    ((p.parse_string env s).2.2.copyRequested = true
      ↔ s.cap - s.data.length < SIMDJSON_PADDING)
    ∧ (∀ q : List Nat, (p.parse_padded env q).2.2.copyRequested = false) := by
  constructor
  · have hc : (p.parse_string env s).2.2.copyRequested
        = decide (s.cap - s.data.length < SIMDJSON_PADDING) := by
      unfold Parser.parse_string
      exact parse_copyRequested env p s.data _ hens
    rw [hc]
    simp
  · intro q
    unfold Parser.parse_padded
    exact parse_false_no_copy env p q

/-- A short string with ample capacity slack. -/
def sStr : StdString := ⟨[1, 2], 40⟩

/-- Witness for C9: a string of length 2 with capacity 40 has slack 38 ≥
padding 32, so no copy is requested. -/
theorem parse_string_copy_iff_witness :
    (pA.ensure_capacity env0 sStr.data.length).1 = ErrorCode.SUCCESS
    ∧ ((pA.parse_string env0 sStr).2.2.copyRequested = true
        ↔ sStr.cap - sStr.data.length < SIMDJSON_PADDING) :=
  ⟨by decide, (parse_string_copy_iff env0 pA sStr (by decide)).1⟩

/-!  The capacity-ceiling invariant (claim C6). -/

/-- `allocate` never touches `_max_capacity`, and leaves `_capacity` equal
to the requested capacity, to zero (scratch failure), or to its old value
(early Tape failure or no-op). -/
theorem allocate_fields (env : Env) (p : Parser) (c d : Nat) :
    (p.allocate env c d).2._max_capacity = p._max_capacity
    ∧ ((p.allocate env c d).2._capacity = c
       ∨ (p.allocate env c d).2._capacity = 0
       ∨ (p.allocate env c d).2._capacity = p._capacity) := by
  by_cases hb : p._capacity ≠ c ∨ p.tape = none <;>
  by_cases hde : env.docAlloc c = ErrorCode.SUCCESS <;>
  by_cases hch : p._capacity ≠ c ∨ p._max_depth ≠ d <;>
  by_cases hie : env.implAlloc c d = ErrorCode.SUCCESS <;>
  simp [Parser.allocate, ErrorCode.isErr, hb, hde, hch, hie]

/-- `ensure_capacity` preserves `capacity ≤ max_capacity`: growth is asked
only up to the ceiling, and a scratch failure zeroes the capacity. -/
theorem ensure_capacity_preserves_inv (env : Env) (p : Parser) (dd : Nat)
    (h : p._capacity ≤ p._max_capacity) :
    (p.ensure_capacity env dd).2._capacity
      ≤ (p.ensure_capacity env dd).2._max_capacity := by
  by_cases hg : dd > p._capacity ∨ p.tape = none
  · by_cases hm : dd > p._max_capacity
    · simp [Parser.ensure_capacity, hg, hm, h]
    · have hle : dd ≤ p._max_capacity := Nat.not_lt.1 hm
      have heq : p.ensure_capacity env dd
          = p.allocate env dd
              (if p._max_depth > 0 then p._max_depth else DEFAULT_MAX_DEPTH) := by
        unfold Parser.ensure_capacity
        rw [if_pos hg, if_neg hm]
      rw [heq,
        (allocate_fields env p dd
          (if p._max_depth > 0 then p._max_depth else DEFAULT_MAX_DEPTH)).1]
      rcases (allocate_fields env p dd
          (if p._max_depth > 0 then p._max_depth else DEFAULT_MAX_DEPTH)).2
        with h1 | h1 | h1 <;> rw [h1]
      · exact hle
      · exact Nat.zero_le _
      · exact h
  · simp [Parser.ensure_capacity, hg, h]

/-- After `parse`, the capacity fields are exactly those left by its
`ensure_capacity` step: no later step of `parse` touches them. -/
theorem parse_capacity_fields (env : Env) (p : Parser) (buf : List Nat)
    (r : Bool) :
    (p.parse env buf r).2.1._capacity
        = (p.ensure_capacity env buf.length).2._capacity
    ∧ (p.parse env buf r).2.1._max_capacity
        = (p.ensure_capacity env buf.length).2._max_capacity := by
  cases r <;>
  by_cases he : (p.ensure_capacity env buf.length).1 = ErrorCode.SUCCESS <;>
  by_cases hp2 : env.padAlloc buf.length = true <;>
  by_cases hc : env.implParse buf buf.length = ErrorCode.SUCCESS <;>
  simp [Parser.parse, ErrorCode.isErr, applyImplParse, he, hp2, hc]

/-- One capacity-gated public operation: `ensure_capacity` or `parse`
(both of which grow only through the `ensure_capacity` gate). -/
inductive GatedOp where
  | ensure (d : Nat)
  | doParse (buf : List Nat) (realloc : Bool)

/-- Run one gated operation, keeping the resulting parser state. -/
def applyGatedOp (env : Env) (p : Parser) : GatedOp → Parser
  | GatedOp.ensure d => (p.ensure_capacity env d).2
  | GatedOp.doParse buf r => (p.parse env buf r).2.1

/-- Run a sequence of gated operations. -/
def runGatedOps (env : Env) (p : Parser) : List GatedOp → Parser
  | [] => p
  | op :: rest => runGatedOps env (applyGatedOp env p op) rest

/-- A single gated operation preserves `capacity ≤ max_capacity`. -/
theorem applyGatedOp_preserves_inv (env : Env) (p : Parser) (op : GatedOp)
    (h : p._capacity ≤ p._max_capacity) :
    (applyGatedOp env p op)._capacity ≤ (applyGatedOp env p op)._max_capacity := by
  cases op with
  | ensure d => exact ensure_capacity_preserves_inv env p d h
  | doParse buf r =>
    show (p.parse env buf r).2.1._capacity ≤ (p.parse env buf r).2.1._max_capacity
    rw [(parse_capacity_fields env p buf r).1,
      (parse_capacity_fields env p buf r).2]
    exact ensure_capacity_preserves_inv env p buf.length h

/-- Any sequence of gated operations preserves `capacity ≤ max_capacity`. -/
theorem runGatedOps_preserves_inv (env : Env) (ops : List GatedOp) :
    ∀ p : Parser, p._capacity ≤ p._max_capacity →
      (runGatedOps env p ops)._capacity
        ≤ (runGatedOps env p ops)._max_capacity := by
  induction ops with
  | nil => exact fun p h => h
  | cons op rest ih =>
    exact fun p h => ih _ (applyGatedOp_preserves_inv env p op h)

/-- A parser whose ceiling is 5 and that owns nothing yet. -/
def pCap : Parser := Parser.init 5

/-- C6 counterexample: the claim fails on the code in two ways.  First,
`allocate` is not gated by `max_capacity`: one `allocate(1, 1)` call on a
fresh parser with `max_capacity = 0` leaves `capacity = 1 > 0`.  Second,
an `ensure_capacity` attempt beyond the ceiling does mutate the parser: it
records `CAPACITY` in the `error` member. -/
theorem capacity_ceiling_counterexample :
    (¬ ((Parser.init 0).allocate env0 1 1).2._capacity
        ≤ ((Parser.init 0).allocate env0 1 1).2._max_capacity)
    ∧ (pCap.ensure_capacity env0 9).2 ≠ pCap := by decide

/-- C6 (amended): `capacity ≤ max_capacity` is preserved by every sequence
of `ensure_capacity` and `parse` calls, and an `ensure_capacity` attempt to
grow beyond `max_capacity` fails with `CAPACITY` mutating nothing but the
recorded error code; direct `allocate` and `set_max_capacity` are not
gated by the ceiling. -/
theorem capacity_ceiling_invariant (env : Env) (p : Parser)
    (ops : List GatedOp) (h : p._capacity ≤ p._max_capacity) :
    ((runGatedOps env p ops)._capacity
        ≤ (runGatedOps env p ops)._max_capacity)
    ∧ (∀ d, (d > p._capacity ∨ p.tape = none) → d > p._max_capacity →
        p.ensure_capacity env d
          = (ErrorCode.CAPACITY, { p with error := ErrorCode.CAPACITY })) := by
  constructor
  · exact runGatedOps_preserves_inv env ops p h
  · intro d hg hm
    unfold Parser.ensure_capacity
    rw [if_pos hg, if_pos hm]

/-- Witness for the amended C6: from the sized parser `pA` (capacity 5,
ceiling 10), an `ensure_capacity 7` followed by a parse keeps the
invariant. -/
theorem capacity_ceiling_invariant_witness :
    pA._capacity ≤ pA._max_capacity
    ∧ (runGatedOps env0 pA
        [GatedOp.ensure 7, GatedOp.doParse [1, 2] false])._capacity
      ≤ (runGatedOps env0 pA
        [GatedOp.ensure 7, GatedOp.doParse [1, 2] false])._max_capacity :=
  ⟨by decide,
    (capacity_ceiling_invariant env0 pA
      [GatedOp.ensure 7, GatedOp.doParse [1, 2] false] (by decide)).1⟩

end SimdjsonSpec
